import Mathlib

/-!
# Verification of the product aggregation-and-ranking pipeline

Shallow embedding of `model/scraper.py`, centred on
`ECommerceComparisonModel.process_and_compare_products` (lines 272-352) and the
record normalizer `_clean_price` (lines 60-68).

Modelling conventions:

* Python floats are modelled as exact rationals (`ℚ`).  The float value `NaN`
  can arise in the pipeline in exactly one way: `df['price'].mean()` of an
  all-missing price column.  We model a possibly-NaN float as `Option ℚ`
  (`none` = NaN) and propagate it through arithmetic the way IEEE does
  (any operation with NaN yields NaN).
* A pandas `DataFrame` column is modelled as a `List` aligned with the input
  order of the batch.
* `df.sort_values('score', ascending=False)` uses the default
  `kind='quicksort'`, which is NOT stable (numpy's introsort permutes equal
  keys for arrays above its small-sort cutoff), so the program guarantees
  only that the result is SOME permutation sorted descending by score, with
  NaN keys placed last (`na_position='last'`).  The model uses a concrete
  descending insertion sort as a representative of that family; no theorem
  in this file asserts anything about the relative order of rows with equal
  scores — every property proved about the sorted output (sortedness,
  permutation, rank assignment, first-occurrence-per-source) holds for any
  correct descending sort.
* `sklearn.TfidfVectorizer` / `cosine_similarity`: the vectorizer tokenizes
  with the default pattern `\w\w+` after lowercasing, and
  `fit_transform` raises (empty vocabulary) exactly when no description
  yields any token, which the bare `except` in the source turns into a
  uniform relevance of `1.0`.  When the vocabulary has exactly one term the
  tf-idf vectors are one-dimensional, so after l2 normalization each vector
  is `1` (term present) or `0` (term absent) and the cosine similarities are
  exactly `0` or `1`; we compute that case exactly.  For vocabularies with
  two or more terms the cosine similarities are irrational in general, so the
  pipeline takes them as an explicit parameter `sims` (the list returned by
  `cosine_similarity(query_vector, description_vectors)[0]`); theorems
  quantify over every possible value of `sims`, which subsumes the actual one.
* `round(x, 2)` is Python's round-half-to-even on the exact rational value.
-/

/-- A raw product record as assembled by the scraping adapters
(`search_amazon` / `search_snapdeal`): the dict keys `title`, `price`,
`rating`, `reviews`, `link`, `image`, `source`, `description`.
`price` is `Option` because `_clean_price` returns `None` on failure;
`rating`, `reviews` and `description` are `Option` so that a record missing
those keys (a NaN cell in `pd.DataFrame(all_products)`) is representable —
the pipeline immediately `fillna`s them. -/
structure RawProduct where
  title : String
  price : Option ℚ
  rating : Option ℚ
  reviews : Option ℚ
  link : String
  image : String
  source : String
  description : Option String
deriving DecidableEq, Inhabited

/-- The weight dictionary `self.weights` with keys
`price`, `ratings`, `reviews`, `description_relevance`. -/
structure Weights where
  price : ℚ
  ratings : ℚ
  reviews : ℚ
  description_relevance : ℚ
deriving DecidableEq, Inhabited

/-- One element of the `results` list built at lines 326-338 of the source:
keys `rank`, `title`, `price`, `rating`, `reviews`, `score`, `source`,
`link`, `image`.  `price` and `score` are `Option ℚ` because they are NaN
floats when every input price is missing; `reviews` passed through `int(...)`. -/
structure RankedProduct where
  rank : ℕ
  title : String
  price : Option ℚ
  rating : ℚ
  reviews : ℤ
  score : Option ℚ
  source : String
  link : String
  image : String
deriving DecidableEq, Inhabited

/-- The dict returned by `process_and_compare_products`.  The source returns
two different shapes: `{"message", "products"}` for an empty input (line 275)
and `{"message", "top_results", "best_by_source", "all_products"}` otherwise
(lines 347-352).  Each field is `Option`al, `none` meaning the key is absent
from the returned dict. -/
structure ComparisonResult where
  message : String
  products : Option (List RankedProduct)
  top_results : Option (List RankedProduct)
  best_by_source : Option (List RankedProduct)
  all_products : Option (List RankedProduct)
deriving DecidableEq, Inhabited

/-- Value of a digit string, most significant first (leading zeros allowed). -/
def digitsToNat (l : List Char) : ℕ :=
  l.foldl (fun n c => 10 * n + (c.toNat - 48)) 0

/-- `_clean_price` (source lines 60-68): falsy (empty) input gives `None`;
otherwise all characters except digits and dots are removed
(`re.sub(r'[^\d.]', '', price_str)`) and the remainder is parsed with
`float(...)`, any failure giving `None`.  `float` accepts a digit/dot string
iff it contains at least one digit and at most one dot. -/
def cleanPrice (s : String) : Option ℚ :=
  if s = "" then none
  else
    let t := s.toList.filter (fun c => c.isDigit || c = '.')
    match t.splitOn '.' with
    | [d] => if d ≠ [] then some (digitsToNat d) else none
    | [d, f] =>
        if d ≠ [] ∨ f ≠ [] then
          some ((digitsToNat d : ℚ) + (digitsToNat f : ℚ) / (10 ^ f.length))
        else none
    | _ => none

/-- Word characters of the (ASCII fragment of the) regex class `\w`. -/
def isWordChar (c : Char) : Bool := c.isAlphanum || c = '_'

/-- Maximal runs of word characters in a character list (`cur` is the
current run, reversed). -/
def wordRuns (cur : List Char) : List Char → List (List Char)
  | [] => if cur = [] then [] else [cur.reverse]
  | c :: cs =>
      if isWordChar c then wordRuns (c :: cur) cs
      else if cur = [] then wordRuns [] cs else cur.reverse :: wordRuns [] cs

/-- Tokenization of `TfidfVectorizer()` with default settings: lowercase
(character-wise, which is what `str.lower` does), then keep maximal
word-character runs of length at least 2 (token pattern `\w\w+`). -/
def tokenize (s : String) : List String :=
  ((wordRuns [] (s.toList.map Char.toLower)).filter
    (fun r => 2 ≤ r.length)).map (fun r => String.mk r)

/-- The distinct terms of the corpus, i.e. the vocabulary that
`TfidfVectorizer().fit_transform` builds from the batch descriptions. -/
def vocab (descs : List String) : List String :=
  (descs.map tokenize).flatten.dedup

/-- `df['description']` after `fillna('')` (source line 288). -/
def descsCol (batch : List RawProduct) : List String :=
  batch.map (fun p => p.description.getD "")

/-- Source lines 285-294.  `df['description_relevance']`: cosine similarity
of each description against the query in the batch tf-idf space, with the
bare-`except` fallback to a uniform `1.0` when `fit_transform` raises on an
empty vocabulary.  A one-term vocabulary is computed exactly (the
one-dimensional tf-idf vectors l2-normalize to `1` or `0`); larger
vocabularies take the similarity row as the `sims` parameter. -/
def relevanceCol (batch : List RawProduct) (query : String) (sims : List ℚ) :
    List ℚ :=
  match vocab (descsCol batch) with
  | [] => batch.map (fun _ => 1)
  | [t] =>
      (descsCol batch).map
        (fun d => if t ∈ tokenize query ∧ t ∈ tokenize d then 1 else 0)
  | _ => sims

/-- `Series.max` on a non-empty column (the empty case, where pandas gives
NaN, is never reached: the pipeline returns early on an empty batch). -/
def maxQ : List ℚ → ℚ
  | [] => 0
  | x :: xs => xs.foldl max x

/-- `Series.min` on a non-empty column. -/
def minQ : List ℚ → ℚ
  | [] => 0
  | x :: xs => xs.foldl min x

/-- `df['price'].mean()`: mean of the present values (pandas skips NaN),
NaN (`none`) when every value is missing. -/
def meanPrice (batch : List RawProduct) : Option ℚ :=
  let ps := batch.filterMap (fun p => p.price)
  if ps = [] then none else some (ps.sum / ps.length)

/-- `df['price'].fillna(df['price'].mean())` (source line 281): present
prices are kept, missing ones become the batch mean (which is itself NaN
when no price is present, in which case `fillna` leaves NaN in place). -/
def imputedPrices (batch : List RawProduct) : List (Option ℚ) :=
  batch.map (fun p =>
    match p.price with
    | some v => some v
    | none => meanPrice batch)

/-- `df['rating'].fillna(0)` (source line 282). -/
def ratingsCol (batch : List RawProduct) : List ℚ :=
  batch.map (fun p => p.rating.getD 0)

/-- `df['reviews'].fillna(0)` (source line 283). -/
def reviewsCol (batch : List RawProduct) : List ℚ :=
  batch.map (fun p => p.reviews.getD 0)

/-- Source lines 304-309, the higher-is-better branch: linear min-max
normalization when `df[feature].max() != df[feature].min()`, the scalar
`1.0` otherwise. -/
def normHigher (xs : List ℚ) : List ℚ :=
  if maxQ xs ≠ minQ xs then
    xs.map (fun x => (x - minQ xs) / (maxQ xs - minQ xs))
  else xs.map (fun _ => 1)

/-- Source lines 298-303, the price branch (`1 - minmax`), on a
possibly-NaN column.  When every entry is NaN, `max()` and `min()` are NaN,
`NaN != NaN` holds, and the division branch turns every entry into NaN.
Otherwise max/min range over the present entries (pandas skips NaN); in the
degenerate-range branch the scalar `1.0` is assigned to the whole column. -/
def priceNorm (xs : List (Option ℚ)) : List (Option ℚ) :=
  let present := xs.filterMap id
  if present = [] then xs.map (fun _ => none)
  else if maxQ present ≠ minQ present then
    xs.map (fun x =>
      x.map (fun v => 1 - (v - minQ present) / (maxQ present - minQ present)))
  else xs.map (fun _ => some 1)

/-- One row of the analysis `DataFrame` after the feature and score columns
have been added (source lines 278-317), still in input order.  `prod` is the
original record, `priceI` the imputed price, `ratingF`/`reviewsF` the
`fillna`ed numeric columns, the four `*Norm` fields the normalized features,
and `score` the weighted combination. -/
structure ScoredRow where
  prod : RawProduct
  priceI : Option ℚ
  ratingF : ℚ
  reviewsF : ℚ
  pNorm : Option ℚ
  rNorm : ℚ
  vNorm : ℚ
  dNorm : ℚ
  score : Option ℚ
deriving DecidableEq, Inhabited

/-- The `DataFrame` of source lines 278-317 (in input order): missing-value
handling, relevance, the four normalized columns, and
`df['score'] = price_norm*w['price'] + rating_norm*w['ratings'] +
reviews_norm*w['reviews'] + description_relevance_norm*w['description_relevance']`.
Only `pNorm` can be NaN (when no input price is present), and IEEE NaN
propagates through `*` and `+` — including `NaN * 0 = NaN` — which the
`Option.map` captures. -/
def scoredRows (batch : List RawProduct) (query : String) (w : Weights)
    (sims : List ℚ) : List ScoredRow :=
  let pI := imputedPrices batch
  let rats := ratingsCol batch
  let revs := reviewsCol batch
  let rels := relevanceCol batch query sims
  let pN := priceNorm pI
  let rN := normHigher rats
  let vN := normHigher revs
  let dN := normHigher rels
  (List.range batch.length).map (fun i =>
    let pn := pN.getD i none
    let rn := rN.getD i 0
    let vn := vN.getD i 0
    let dn := dN.getD i 0
    { prod := batch.getD i default
      priceI := pI.getD i none
      ratingF := rats.getD i 0
      reviewsF := revs.getD i 0
      pNorm := pn
      rNorm := rn
      vNorm := vn
      dNorm := dn
      score := pn.map (fun pv =>
        pv * w.price + rn * w.ratings + vn * w.reviews +
          dn * w.description_relevance) })

/-- Strict descending comparison on possibly-NaN scores: `a` sorts strictly
before `b`.  A NaN never sorts before anything (every comparison with NaN is
false), and everything sorts before a NaN (`na_position='last'`). -/
def scoreGtB : Option ℚ → Option ℚ → Bool
  | some a, some b => decide (b < a)
  | some _, none => true
  | none, _ => false

/-- `a` is allowed to precede `b` in the descending order: `b` is not
strictly greater than `a`. -/
def scoreGe (a b : Option ℚ) : Prop := scoreGtB b a = false

instance (a b : Option ℚ) : Decidable (scoreGe a b) := by
  unfold scoreGe; infer_instance

/-- The sort order on rows: `a` may precede `b` in the descending order. -/
def rowGe (a b : ScoredRow) : Prop := scoreGe a.score b.score

instance : DecidableRel rowGe := fun a b => by
  unfold rowGe scoreGe; infer_instance

/-- `df.sort_values('score', ascending=False)` (source line 320): a
descending sort on the score column with NaN keys last
(`na_position='last'`, captured by `rowGe` treating `none` as bottom).  The
default `kind='quicksort'` is unstable, so the program fixes no particular
order among equal scores; this model uses insertion sort as one concrete
member of the allowed family, and no theorem below depends on the tie
order it happens to produce (see the module docstring). -/
def sortScoresDesc (l : List ScoredRow) : List ScoredRow :=
  List.insertionSort rowGe l

/-- Python `int(...)` on a float: truncation toward zero. -/
def truncQ (q : ℚ) : ℤ := if 0 ≤ q then ⌊q⌋ else ⌈q⌉

/-- Round-half-to-even to an integer, the behaviour of Python `round`. -/
def halfEven (x : ℚ) : ℤ :=
  if Int.fract x < 1 / 2 then ⌊x⌋
  else if 1 / 2 < Int.fract x then ⌊x⌋ + 1
  else if 2 ∣ ⌊x⌋ then ⌊x⌋ else ⌊x⌋ + 1

/-- Python `round(x, 2)`. -/
def round2 (x : ℚ) : ℚ := (halfEven (x * 100) : ℚ) / 100

/-- One element of `results` (source lines 328-338):
`score` is `round(row['score'] * 100, 2)` and `reviews` is
`int(row['reviews'])`. -/
def toRankedProduct (rk : ℕ) (r : ScoredRow) : RankedProduct :=
  { rank := rk
    title := r.prod.title
    price := r.priceI
    rating := r.ratingF
    reviews := truncQ r.reviewsF
    score := r.score.map (fun s => round2 (s * 100))
    source := r.prod.source
    link := r.prod.link
    image := r.prod.image }

/-- The `results` list (source lines 319-338): sort by score, assign
`rank = 1..N` by position (`df['rank'] = range(1, len(df) + 1)`), and build
the output dicts by iterating the sorted frame. -/
def rankedResults (batch : List RawProduct) (query : String) (w : Weights)
    (sims : List ℚ) : List RankedProduct :=
  (List.enumFrom 1 (sortScoresDesc (scoredRows batch query w sims))).map
    (fun pr => toRankedProduct pr.1 pr.2)

/-- The loop of source lines 341-345: walk the rank-ordered results and keep
the first product seen for each source (`seen` is the set of dict keys
already present). -/
def firstBySource (seen : List String) : List RankedProduct → List RankedProduct
  | [] => []
  | p :: ps =>
      if p.source ∈ seen then firstBySource seen ps
      else p :: firstBySource (p.source :: seen) ps

/-- `list(best_by_source.values())`: dicts preserve insertion order, so this
is the first occurrence of each source in rank order. -/
def bestBySource (l : List RankedProduct) : List RankedProduct :=
  firstBySource [] l

/-- `process_and_compare_products(all_products, query)` (source lines
272-352).  `w` is `self.weights`; `sims` stands for the sklearn cosine
similarity row (see `relevanceCol`).  The non-empty message in the source is
an f-string that also quotes the query; the quoting characters are immaterial
to every claim and are omitted. -/
def process_and_compare_products (batch : List RawProduct) (query : String)
    (w : Weights) (sims : List ℚ) : ComparisonResult :=
  if batch = [] then
    { message := "No products found"
      products := some []
      top_results := none
      best_by_source := none
      all_products := none }
  else
    let results := rankedResults batch query w sims
    { message := "Found " ++ toString results.length ++ " products matching " ++ query
      products := none
      top_results := some (results.take 5)
      best_by_source := some (bestBySource results)
      all_products := some results }

/-! ## Concrete sample data

Small concrete batches used to instantiate the theorems. -/

/-- A generic sample record (Amazon). -/
def sampleA : RawProduct :=
  { title := "alpha", price := some 100, rating := some 4, reviews := some 5
    link := "linkA", image := "imgA", source := "Amazon", description := some "tv" }

/-- A generic sample record (Snapdeal). -/
def sampleB : RawProduct :=
  { title := "beta", price := some 200, rating := some 3, reviews := some 7
    link := "linkB", image := "imgB", source := "Snapdeal", description := some "tv" }

/-- The default weights of the source (`price 0.4, ratings 0.3, reviews 0.2,
description_relevance 0.1`). -/
def wDefault : Weights :=
  { price := 2/5, ratings := 3/10, reviews := 1/5, description_relevance := 1/10 }

/-- First input record of the rounding-tie batch: cheapest, lowest rating. -/
def tieA : RawProduct :=
  { title := "aa", price := some 50, rating := some 1, reviews := some 10
    link := "la", image := "ia", source := "Amazon", description := some "phone" }

/-- Second input record of the rounding-tie batch: dearer, higher rating. -/
def tieB : RawProduct :=
  { title := "bb", price := some 100, rating := some 2, reviews := some 10
    link := "lb", image := "ib", source := "Snapdeal", description := some "phone" }

/-- Weights whose price and rating components differ by `10⁻⁶`: the two raw
scores `0.4999995` and `0.5000005` both round to `50.0` after scaling. -/
def wTie : Weights :=
  { price := 4999995/10000000, ratings := 5000005/10000000
    reviews := 0, description_relevance := 0 }

/-- Cheap variant of the two otherwise-identical records. -/
def cheapTV : RawProduct :=
  { title := "tv set", price := some 500, rating := some 4, reviews := some 10
    link := "lt", image := "it", source := "Amazon", description := some "tv" }

/-- Dear variant of the two otherwise-identical records. -/
def dearTV : RawProduct :=
  { title := "tv set", price := some 1000, rating := some 4, reviews := some 10
    link := "lt", image := "it", source := "Amazon", description := some "tv" }

/-- A positive price weight small enough that `100 * w.price` rounds to 0. -/
def wPriceTiny : Weights :=
  { price := 1/100000, ratings := 0, reviews := 0, description_relevance := 0 }

/-- Record whose description holds the single term of the batch vocabulary. -/
def appleProd : RawProduct :=
  { title := "one", price := some 10, rating := some 1, reviews := some 1
    link := "l1", image := "i1", source := "Amazon", description := some "apple" }

/-- Record with an empty description (no tokens). -/
def blankProd : RawProduct :=
  { title := "two", price := some 20, rating := some 2, reviews := some 2
    link := "l2", image := "i2", source := "Snapdeal", description := some "" }

/-- Record whose raw price text is unparsable, so `_clean_price` gives
absence. -/
def contactProd : RawProduct :=
  { title := "contact", price := cleanPrice "Contact for price"
    rating := some 1, reviews := some 1, link := "lc", image := "ic"
    source := "Amazon", description := some "tv" }

/-- Record with raw price text `"200"`. -/
def p200Prod : RawProduct :=
  { title := "p200", price := cleanPrice "200", rating := some 2
    reviews := some 2, link := "l200", image := "i200", source := "Snapdeal"
    description := some "tv" }

/-- Record with raw price text `"400"`. -/
def p400Prod : RawProduct :=
  { title := "p400", price := cleanPrice "400", rating := some 3
    reviews := some 3, link := "l400", image := "i400", source := "Flipkart"
    description := some "tv" }

/-- Record for the degenerate-range batch (all numeric columns constant). -/
def constA : RawProduct :=
  { title := "ca", price := some 999, rating := some 4, reviews := some 12
    link := "lca", image := "ica", source := "Amazon", description := some "tv" }

/-- Second record of the degenerate-range batch. -/
def constB : RawProduct :=
  { title := "cb", price := some 999, rating := some 4, reviews := some 12
    link := "lcb", image := "icb", source := "Snapdeal", description := some "tv" }

/-! ## General helper lemmas -/

theorem getD_range_map {β : Type} (f : ℕ → β) {n i : ℕ} (d : β) (h : i < n) :
    ((List.range n).map f).getD i d = f i := by
  rw [List.getD_eq_getElem _ _ (by simpa using h), List.getElem_map,
    List.getElem_range]

theorem range_map_getD {α : Type} (l : List α) (d : α) :
    (List.range l.length).map (fun i => l.getD i d) = l := by
  apply List.ext_getElem (by simp)
  intro i h1 h2
  rw [List.getElem_map, List.getElem_range, List.getD_eq_getElem l d h2]

theorem scoredRows_length (batch : List RawProduct) (query : String)
    (w : Weights) (sims : List ℚ) :
    (scoredRows batch query w sims).length = batch.length := by
  simp [scoredRows]

theorem scoredRows_map_prod (batch : List RawProduct) (query : String)
    (w : Weights) (sims : List ℚ) :
    (scoredRows batch query w sims).map (fun r => r.prod) = batch := by
  rw [scoredRows, List.map_map]
  exact range_map_getD batch default

/-! ## Order facts about the sort relation -/

instance : IsTotal ScoredRow rowGe := by
  constructor
  intro a b
  unfold rowGe scoreGe
  cases ha : a.score with
  | none => cases hb : b.score with
    | none => left; rfl
    | some q => right; rfl
  | some p =>
    cases hb : b.score with
    | none => left; rfl
    | some q =>
      simp only [scoreGtB, decide_eq_false_iff_not, not_lt]
      exact le_total q p

instance : IsTrans ScoredRow rowGe := by
  constructor
  intro a b c hab hbc
  unfold rowGe scoreGe at *
  cases hc : c.score with
  | none => cases ha : a.score <;> rfl
  | some q3 =>
    rw [hc] at hbc
    cases hb : b.score with
    | none => rw [hb] at hbc; simp [scoreGtB] at hbc
    | some q2 =>
      rw [hb] at hab hbc
      cases ha : a.score with
      | none => rw [ha] at hab; simp [scoreGtB] at hab
      | some q1 =>
        rw [ha] at hab
        simp only [scoreGtB, decide_eq_false_iff_not, not_lt] at *
        exact le_trans hbc hab

theorem sortScoresDesc_perm (l : List ScoredRow) : (sortScoresDesc l).Perm l :=
  List.perm_insertionSort rowGe l

theorem sortScoresDesc_length (l : List ScoredRow) :
    (sortScoresDesc l).length = l.length :=
  List.length_insertionSort rowGe l

theorem sortScoresDesc_sorted (l : List ScoredRow) :
    (sortScoresDesc l).Pairwise rowGe :=
  List.sorted_insertionSort rowGe l

/-! ## Rounding lemmas -/

theorem halfEven_bounds (x : ℚ) : ⌊x⌋ ≤ halfEven x ∧ halfEven x ≤ ⌊x⌋ + 1 := by
  unfold halfEven
  split_ifs <;> omega

theorem halfEven_mono {x y : ℚ} (h : x ≤ y) : halfEven x ≤ halfEven y := by
  rcases lt_or_eq_of_le (Int.floor_le_floor h) with hlt | heq
  · have h1 := halfEven_bounds x
    have h2 := halfEven_bounds y
    omega
  · have hf : Int.fract x ≤ Int.fract y := by
      unfold Int.fract
      rw [← heq]
      linarith
    unfold halfEven
    rw [← heq]
    split_ifs with a1 a2 a3 b1 b2 b3 <;> first
      | omega
      | linarith

theorem round2_mono {x y : ℚ} (h : x ≤ y) : round2 x ≤ round2 y := by
  unfold round2
  have := halfEven_mono (mul_le_mul_of_nonneg_right h (by norm_num : (0:ℚ) ≤ 100))
  have hc : ((halfEven (x * 100) : ℚ)) ≤ ((halfEven (y * 100) : ℚ)) := by
    exact_mod_cast this
  linarith

theorem round2_zero : round2 0 = 0 := by
  norm_num [round2, halfEven, Int.fract]

theorem round2_nonneg {x : ℚ} (h : 0 ≤ x) : 0 ≤ round2 x := by
  have := round2_mono h
  rwa [round2_zero] at this

/-- Monotonicity of the reported (rounded) score with respect to the sort
order on raw scores, NaN cases included. -/
theorem scoreGe_map_round {x y : Option ℚ} (h : scoreGe x y) :
    scoreGe (x.map (fun s => round2 (s * 100)))
      (y.map (fun s => round2 (s * 100))) := by
  cases y with
  | none => cases x <;> rfl
  | some b =>
    cases x with
    | none => exact absurd h (by simp [scoreGe, scoreGtB])
    | some a =>
      have hba : b ≤ a := by
        simpa [scoreGe, scoreGtB, not_lt] using h
      show scoreGtB (some (round2 (b * 100))) (some (round2 (a * 100))) = false
      simp only [scoreGtB, decide_eq_false_iff_not, not_lt]
      exact round2_mono
        (mul_le_mul_of_nonneg_right hba (by norm_num : (0:ℚ) ≤ 100))

/-! ## Lemmas about the ranked results -/

theorem enumFrom_map_comp_snd {α β : Type} (f : α → β) (n : ℕ) (l : List α) :
    (List.enumFrom n l).map (fun pr => f pr.2) = l.map f := by
  have h2 : (List.enumFrom n l).map (fun pr => f pr.2) =
      ((List.enumFrom n l).map Prod.snd).map f := by
    rw [List.map_map]; rfl
  rw [h2, List.enumFrom_map_snd]

theorem rankedResults_length (batch : List RawProduct) (query : String)
    (w : Weights) (sims : List ℚ) :
    (rankedResults batch query w sims).length = batch.length := by
  simp [rankedResults, sortScoresDesc_length, scoredRows_length]

theorem rankedResults_map_rank (batch : List RawProduct) (query : String)
    (w : Weights) (sims : List ℚ) :
    (rankedResults batch query w sims).map (fun r => r.rank) =
      List.range' 1 batch.length := by
  rw [rankedResults, List.map_map]
  have h1 : ((fun r : RankedProduct => r.rank) ∘
      fun pr : ℕ × ScoredRow => toRankedProduct pr.1 pr.2) = Prod.fst := rfl
  rw [h1, List.enumFrom_map_fst, sortScoresDesc_length, scoredRows_length]

theorem rankedResults_map_score (batch : List RawProduct) (query : String)
    (w : Weights) (sims : List ℚ) :
    (rankedResults batch query w sims).map (fun r => r.score) =
      (sortScoresDesc (scoredRows batch query w sims)).map
        (fun r => r.score.map (fun s => round2 (s * 100))) := by
  rw [rankedResults, List.map_map]
  exact enumFrom_map_comp_snd
    (fun r : ScoredRow => r.score.map (fun s => round2 (s * 100))) 1 _

theorem rankedResults_map_triple (batch : List RawProduct) (query : String)
    (w : Weights) (sims : List ℚ) :
    (rankedResults batch query w sims).map
        (fun r => (r.title, r.link, r.source)) =
      (sortScoresDesc (scoredRows batch query w sims)).map
        (fun r => (r.prod.title, r.prod.link, r.prod.source)) := by
  rw [rankedResults, List.map_map]
  exact enumFrom_map_comp_snd
    (fun r : ScoredRow => (r.prod.title, r.prod.link, r.prod.source)) 1 _

theorem rankedResults_map_source (batch : List RawProduct) (query : String)
    (w : Weights) (sims : List ℚ) :
    (rankedResults batch query w sims).map (fun r => r.source) =
      (sortScoresDesc (scoredRows batch query w sims)).map
        (fun r => r.prod.source) := by
  rw [rankedResults, List.map_map]
  exact enumFrom_map_comp_snd (fun r : ScoredRow => r.prod.source) 1 _

/-- The rank column is strictly increasing along the results list. -/
theorem rankedResults_rank_strict (batch : List RawProduct) (query : String)
    (w : Weights) (sims : List ℚ) :
    (rankedResults batch query w sims).Pairwise
      (fun a b => a.rank < b.rank) := by
  have h := List.pairwise_lt_range' 1 batch.length 1 (by norm_num)
  rw [← rankedResults_map_rank batch query w sims, List.pairwise_map] at h
  exact h

/-- The reported scores are descending along the results list. -/
theorem rankedResults_score_sorted (batch : List RawProduct) (query : String)
    (w : Weights) (sims : List ℚ) :
    (rankedResults batch query w sims).Pairwise
      (fun a b => scoreGe a.score b.score) := by
  have h1 : ((sortScoresDesc (scoredRows batch query w sims)).map
      (fun r => r.score.map (fun s => round2 (s * 100)))).Pairwise scoreGe :=
    (sortScoresDesc_sorted _).map _ (fun a b hab => scoreGe_map_round hab)
  rw [← rankedResults_map_score batch query w sims, List.pairwise_map] at h1
  exact h1

theorem rankedResults_source_perm (batch : List RawProduct) (query : String)
    (w : Weights) (sims : List ℚ) :
    ((rankedResults batch query w sims).map (fun r => r.source)).Perm
      (batch.map (fun p => p.source)) := by
  rw [rankedResults_map_source]
  have h1 := (sortScoresDesc_perm (scoredRows batch query w sims)).map
    (fun r : ScoredRow => r.prod.source)
  have h2 : (scoredRows batch query w sims).map
      (fun r : ScoredRow => r.prod.source) = batch.map (fun p => p.source) := by
    have h3 : (scoredRows batch query w sims).map
        (fun r : ScoredRow => r.prod.source) =
        ((scoredRows batch query w sims).map (fun r => r.prod)).map
          (fun p => p.source) := by
      rw [List.map_map]; rfl
    rw [h3, scoredRows_map_prod]
  rwa [h2] at h1

/-! ## Best-by-source lemmas -/

theorem firstBySource_filter (src : String) :
    ∀ (seen : List String) (l : List RankedProduct),
      (firstBySource seen l).filter (fun r => decide (r.source = src)) =
        if src ∈ seen then []
        else (l.filter (fun r => decide (r.source = src))).take 1
  | seen, [] => by simp [firstBySource]
  | seen, p :: ps => by
    by_cases hp : p.source ∈ seen
    · rw [firstBySource, if_pos hp, firstBySource_filter src seen ps]
      by_cases hs : src ∈ seen
      · simp [hs]
      · have hps : ¬ p.source = src := fun he => hs (he ▸ hp)
        simp [hs, List.filter_cons, hps]
    · rw [firstBySource, if_neg hp]
      by_cases hps : p.source = src
      · have hseen : src ∈ p.source :: seen := by
          rw [← hps]; exact List.mem_cons_self _ _
        have h1 := firstBySource_filter src (p.source :: seen) ps
        rw [if_pos hseen] at h1
        have hsrcseen : src ∉ seen := fun hs => hp (hps ▸ hs)
        rw [if_neg hsrcseen, List.filter_cons, List.filter_cons,
          if_pos (by simp [hps]), if_pos (by simp [hps]), h1]
        simp
      · have hmem : (src ∈ p.source :: seen) ↔ (src ∈ seen) := by
          constructor
          · intro h
            rcases List.mem_cons.mp h with he | hs
            · exact absurd he.symm hps
            · exact hs
          · exact fun hs => List.mem_cons_of_mem _ hs
        have h1 := firstBySource_filter src (p.source :: seen) ps
        rw [List.filter_cons]
        by_cases hs : src ∈ seen
        · rw [if_pos (hmem.mpr hs)] at h1
          simp [hps, h1, hs]
        · rw [if_neg (fun hc => hs (hmem.mp hc))] at h1
          simp [hps, h1, hs, List.filter_cons]

theorem bestBySource_filter (l : List RankedProduct) (src : String) :
    (bestBySource l).filter (fun r => decide (r.source = src)) =
      (l.filter (fun r => decide (r.source = src))).take 1 := by
  rw [bestBySource, firstBySource_filter src [] l, if_neg (by simp)]

/-! ## Degenerate-range and process-shape lemmas -/

theorem foldl_max_const (c : ℚ) : ∀ n : ℕ, List.foldl max c (List.replicate n c) = c
  | 0 => rfl
  | n + 1 => by
    rw [List.replicate_succ, List.foldl_cons, max_self]
    exact foldl_max_const c n

theorem foldl_min_const (c : ℚ) : ∀ n : ℕ, List.foldl min c (List.replicate n c) = c
  | 0 => rfl
  | n + 1 => by
    rw [List.replicate_succ, List.foldl_cons, min_self]
    exact foldl_min_const c n

theorem maxQ_minQ_replicate (n : ℕ) (c : ℚ) :
    maxQ (List.replicate n c) = minQ (List.replicate n c) := by
  cases n with
  | zero => rfl
  | succ m =>
    rw [List.replicate_succ]
    show List.foldl max c (List.replicate m c) = List.foldl min c (List.replicate m c)
    rw [foldl_max_const, foldl_min_const]

/-- A constant column takes the `else` branch of the normalization and every
entry becomes `1.0`. -/
theorem normHigher_replicate (n : ℕ) (c : ℚ) :
    normHigher (List.replicate n c) = List.replicate n 1 := by
  rw [normHigher, if_neg (by simpa using maxQ_minQ_replicate n c)]
  rw [List.map_replicate]

theorem filterMap_id_replicate_some (n : ℕ) (c : ℚ) :
    (List.replicate n (some c)).filterMap id = List.replicate n c := by
  induction n with
  | zero => rfl
  | succ m ih => simp [List.replicate_succ, List.filterMap_cons, ih]

/-- A constant present price column takes the scalar-`1.0` branch. -/
theorem priceNorm_replicate (n : ℕ) (c : ℚ) :
    priceNorm (List.replicate n (some c)) = List.replicate n (some 1) := by
  cases n with
  | zero => rfl
  | succ m =>
    rw [priceNorm]
    simp only [filterMap_id_replicate_some]
    rw [if_neg (by simp), if_neg (by simpa using maxQ_minQ_replicate (m + 1) c)]
    rw [List.map_replicate]

theorem process_all_products {batch : List RawProduct} (query : String)
    (w : Weights) (sims : List ℚ) (h : batch ≠ []) :
    (process_and_compare_products batch query w sims).all_products =
      some (rankedResults batch query w sims) := by
  rw [process_and_compare_products, if_neg h]

theorem process_best_by_source {batch : List RawProduct} (query : String)
    (w : Weights) (sims : List ℚ) (h : batch ≠ []) :
    (process_and_compare_products batch query w sims).best_by_source =
      some (bestBySource (rankedResults batch query w sims)) := by
  rw [process_and_compare_products, if_neg h]

theorem rankedResults_triple_perm (batch : List RawProduct) (query : String)
    (w : Weights) (sims : List ℚ) :
    ((rankedResults batch query w sims).map
        (fun r => (r.title, r.link, r.source))).Perm
      (batch.map (fun p => (p.title, p.link, p.source))) := by
  rw [rankedResults_map_triple]
  have h1 := (sortScoresDesc_perm (scoredRows batch query w sims)).map
    (fun r : ScoredRow => (r.prod.title, r.prod.link, r.prod.source))
  have h2 : (scoredRows batch query w sims).map
      (fun r : ScoredRow => (r.prod.title, r.prod.link, r.prod.source)) =
      batch.map (fun p => (p.title, p.link, p.source)) := by
    have h3 : (scoredRows batch query w sims).map
        (fun r : ScoredRow => (r.prod.title, r.prod.link, r.prod.source)) =
        ((scoredRows batch query w sims).map (fun r => r.prod)).map
          (fun p => (p.title, p.link, p.source)) := by
      rw [List.map_map]; rfl
    rw [h3, scoredRows_map_prod]
  rwa [h2] at h1

/-! ## Claim theorems -/

/-- C2 counterexample: on the empty input batch the source returns the
two-key dict `{"message": ..., "products": []}` (line 275), so the
`all_products`, `top_results` and `best_by_source` keys are all absent —
refuting the claim that the three lists are present and empty. -/
theorem c2_empty_keys_absent :
    (process_and_compare_products [] "laptop" wDefault []).all_products = none ∧
    (process_and_compare_products [] "laptop" wDefault []).top_results = none ∧
    (process_and_compare_products [] "laptop" wDefault []).best_by_source = none :=
  ⟨rfl, rfl, rfl⟩

/-- C2 (amended): for the empty input batch the result is exactly the
two-key dict with the non-empty message `"No products found"` and a present,
empty `products` list; the `all_products`, `top_results` and `best_by_source`
keys of the non-empty shape are absent. -/
theorem c2_empty_input_shape (query : String) (w : Weights) (sims : List ℚ) :
    process_and_compare_products [] query w sims =
      { message := "No products found", products := some []
        top_results := none, best_by_source := none, all_products := none } ∧
    (process_and_compare_products [] query w sims).message ≠ "" := by
  refine ⟨rfl, ?_⟩
  have hm : (process_and_compare_products [] query w sims).message =
      "No products found" := rfl
  rw [hm]
  decide

/-- C3: for every non-empty input batch of size N, the multiset of rank
values over the `all_products` output is exactly `{1, ..., N}`: each rank
occurs exactly once, no duplicates, no gaps. -/
theorem c3_rank_bijection (batch : List RawProduct) (query : String)
    (w : Weights) (sims : List ℚ) (h : batch ≠ []) :
    ∃ l, (process_and_compare_products batch query w sims).all_products =
        some l ∧
      Multiset.ofList (l.map (fun r => r.rank)) =
        Multiset.ofList (List.range' 1 batch.length) :=
  ⟨_, process_all_products query w sims h, by rw [rankedResults_map_rank]⟩

theorem c3_rank_bijection_witness :
    ∃ l, (process_and_compare_products [sampleA, sampleB] "tv" wDefault
        []).all_products = some l ∧
      Multiset.ofList (l.map (fun r => r.rank)) =
        Multiset.ofList (List.range' 1 2) :=
  c3_rank_bijection [sampleA, sampleB] "tv" wDefault [] (by simp)

/-- C5: for each of the four features, whenever the feature column is
constant across the batch (its maximum equals its minimum, including
singleton batches), the normalization step assigns the sub-score `1.0` to
every product — the division branch is not taken, so no division by zero or
NaN can arise from it. -/
theorem c5_degenerate_norms (batch : List RawProduct) (query : String)
    (w : Weights) (sims : List ℚ) (h : batch ≠ []) :
    (∀ (n : ℕ) (c : ℚ), imputedPrices batch = List.replicate n (some c) →
      priceNorm (imputedPrices batch) = List.replicate n (some 1)) ∧
    (∀ (n : ℕ) (c : ℚ), ratingsCol batch = List.replicate n c →
      normHigher (ratingsCol batch) = List.replicate n 1) ∧
    (∀ (n : ℕ) (c : ℚ), reviewsCol batch = List.replicate n c →
      normHigher (reviewsCol batch) = List.replicate n 1) ∧
    (∀ (n : ℕ) (c : ℚ), relevanceCol batch query sims = List.replicate n c →
      normHigher (relevanceCol batch query sims) = List.replicate n 1) := by
  refine ⟨?_, ?_, ?_, ?_⟩ <;> intro n c hc <;> rw [hc]
  · exact priceNorm_replicate n c
  · exact normHigher_replicate n c
  · exact normHigher_replicate n c
  · exact normHigher_replicate n c

theorem c5_degenerate_norms_witness :
    priceNorm (imputedPrices [constA, constB]) = List.replicate 2 (some 1) ∧
    normHigher (ratingsCol [constA, constB]) = List.replicate 2 1 ∧
    normHigher (reviewsCol [constA, constB]) = List.replicate 2 1 ∧
    normHigher (relevanceCol [constA, constB] "tv" []) =
      List.replicate 2 1 := by
  have h := c5_degenerate_norms [constA, constB] "tv" wDefault [] (by simp)
  exact ⟨h.1 2 999 (by decide), h.2.1 2 4 (by decide),
    h.2.2.1 2 12 (by decide), h.2.2.2 2 1 (by decide)⟩

/-- C7 (amended): if TF-IDF vectorization fails — which happens exactly when
the batch yields no terms at all (empty vocabulary, e.g. all descriptions
empty) — the relevance used is `1.0` uniformly for all products and the
ranking completes, returning one ranked product per input.  (A batch with
exactly ONE distinct term vectorizes successfully and uses the cosine
similarities instead; see the counterexample.) -/
theorem c7_relevance_fallback (batch : List RawProduct) (query : String)
    (w : Weights) (sims : List ℚ) (h : batch ≠ [])
    (hv : vocab (descsCol batch) = []) :
    relevanceCol batch query sims = List.replicate batch.length 1 ∧
    ∃ l, (process_and_compare_products batch query w sims).all_products =
        some l ∧ l.length = batch.length := by
  constructor
  · rw [relevanceCol, hv]
    simp
  · exact ⟨_, process_all_products query w sims h,
      rankedResults_length batch query w sims⟩

theorem c7_relevance_fallback_witness :
    relevanceCol [blankProd] "apple" [] = List.replicate 1 1 ∧
    ∃ l, (process_and_compare_products [blankProd] "apple" wDefault
        []).all_products = some l ∧ l.length = 1 :=
  c7_relevance_fallback [blankProd] "apple" wDefault [] (by simp) (by decide)

/-- C7 counterexample: the batch `[appleProd, blankProd]` has exactly one
distinct term (`"apple"`), i.e. fewer than 2; `fit_transform` succeeds on a
one-term vocabulary, and the relevance used is the cosine-similarity row
`[1, 0]` (query `"apple"` matches the first description, the second is
empty), not the uniform `1.0` the claim asserts. -/
theorem c7_one_term_not_uniform :
    vocab (descsCol [appleProd, blankProd]) = ["apple"] ∧
    (vocab (descsCol [appleProd, blankProd])).length < 2 ∧
    relevanceCol [appleProd, blankProd] "apple" [] = [1, 0] ∧
    relevanceCol [appleProd, blankProd] "apple" [] ≠
      List.replicate 2 1 := by
  decide

/-- C8: whenever at least one input record has an absent price (as produced
by `_clean_price` on unparsable or empty text) and at least one record has a
present price, each absent price is replaced, before feature normalization,
by the arithmetic mean of the present prices of the batch. -/
theorem c8_price_imputation (batch : List RawProduct) (i : ℕ)
    (hi : i < batch.length)
    (habs : (batch.getD i default).price = none)
    (hpres : batch.filterMap (fun p => p.price) ≠ []) :
    (imputedPrices batch).getD i none =
      some ((batch.filterMap (fun p => p.price)).sum /
        (batch.filterMap (fun p => p.price)).length) := by
  have hlen : i < (imputedPrices batch).length := by
    simpa [imputedPrices] using hi
  rw [List.getD_eq_getElem _ _ hlen]
  rw [List.getD_eq_getElem _ _ hi] at habs
  have hval : (imputedPrices batch)[i] = meanPrice batch := by
    simp only [imputedPrices, List.getElem_map]
    rw [habs]
  rw [hval, meanPrice]
  simp only [if_neg hpres]

theorem c8_price_imputation_witness :
    (imputedPrices [contactProd, p200Prod, p400Prod]).getD 0 none =
      some 300 := by
  have h := c8_price_imputation [contactProd, p200Prod, p400Prod] 0
    (by decide) (by decide) (by decide)
  have hl : [contactProd, p200Prod, p400Prod].filterMap
      (fun p => p.price) = [200, 400] := by decide
  rw [hl] at h
  rw [h]
  norm_num

/-- C9: for every non-empty input batch and weight vector, the score column
is exactly `price_norm*w.price + rating_norm*w.ratings +
reviews_norm*w.reviews + relevance_norm*w.description_relevance`, and the
score reported in `all_products` for each product is that value multiplied
by 100 and rounded (half-to-even) to two decimal places. -/
theorem c9_score_formula (batch : List RawProduct) (query : String)
    (w : Weights) (sims : List ℚ) (h : batch ≠ []) :
    ∃ l, (process_and_compare_products batch query w sims).all_products =
        some l ∧
      (∀ r ∈ scoredRows batch query w sims,
        r.score = r.pNorm.map (fun pv =>
          pv * w.price + r.rNorm * w.ratings + r.vNorm * w.reviews +
            r.dNorm * w.description_relevance)) ∧
      (l.map (fun r => r.score)).Perm
        ((scoredRows batch query w sims).map
          (fun r => r.score.map (fun v => round2 (v * 100)))) := by
  refine ⟨_, process_all_products query w sims h, ?_, ?_⟩
  · intro r hr
    simp only [scoredRows] at hr
    obtain ⟨i, hi, rfl⟩ := List.mem_map.mp hr
    rfl
  · rw [rankedResults_map_score]
    exact (sortScoresDesc_perm _).map _

theorem c9_score_formula_witness :
    ∃ l, (process_and_compare_products [sampleA, sampleB] "tv" wDefault
        []).all_products = some l ∧
      (∀ r ∈ scoredRows [sampleA, sampleB] "tv" wDefault [],
        r.score = r.pNorm.map (fun pv =>
          pv * wDefault.price + r.rNorm * wDefault.ratings +
            r.vNorm * wDefault.reviews +
            r.dNorm * wDefault.description_relevance)) ∧
      (l.map (fun r => r.score)).Perm
        ((scoredRows [sampleA, sampleB] "tv" wDefault []).map
          (fun r => r.score.map (fun v => round2 (v * 100)))) :=
  c9_score_formula [sampleA, sampleB] "tv" wDefault [] (by simp)

/-- C10: ranking never drops, duplicates or invents a record: for every
non-empty input batch the `all_products` output has the same length as the
input and the multiset of `(title, link, source)` triples is preserved. -/
theorem c10_products_preserved (batch : List RawProduct) (query : String)
    (w : Weights) (sims : List ℚ) (h : batch ≠ []) :
    ∃ l, (process_and_compare_products batch query w sims).all_products =
        some l ∧
      l.length = batch.length ∧
      Multiset.ofList (l.map (fun r => (r.title, r.link, r.source))) =
        Multiset.ofList (batch.map (fun p => (p.title, p.link, p.source))) :=
  ⟨_, process_all_products query w sims h,
    rankedResults_length batch query w sims,
    Multiset.coe_eq_coe.mpr (rankedResults_triple_perm batch query w sims)⟩

theorem c10_products_preserved_witness :
    ∃ l, (process_and_compare_products [sampleA, sampleB] "tv" wDefault
        []).all_products = some l ∧
      l.length = 2 ∧
      Multiset.ofList (l.map (fun r => (r.title, r.link, r.source))) =
        Multiset.ofList ([sampleA, sampleB].map
          (fun p => (p.title, p.link, p.source))) :=
  c10_products_preserved [sampleA, sampleB] "tv" wDefault [] (by simp)

/-- C1 (amended): for every non-empty input batch the `all_products`
sequence is sorted by reported score descending.  The tie clause of the
original claim does not hold: products whose reported scores tie only
because rounding collapsed distinct raw scores are ordered by raw score,
which can reverse the input order (see the counterexample), and for rows
with equal raw scores the default unstable `kind='quicksort'` gives no
input-order guarantee either, so no tie order is asserted here. -/
theorem c1_sorted_desc (batch : List RawProduct) (query : String)
    (w : Weights) (sims : List ℚ) (h : batch ≠ []) :
    ∃ l, (process_and_compare_products batch query w sims).all_products =
        some l ∧
      l.Pairwise (fun x y => scoreGe x.score y.score) :=
  ⟨_, process_all_products query w sims h,
    rankedResults_score_sorted batch query w sims⟩

theorem c1_sorted_desc_witness :
    ∃ l, (process_and_compare_products [sampleA, sampleB] "tv" wDefault
        []).all_products = some l ∧
      l.Pairwise (fun x y => scoreGe x.score y.score) :=
  c1_sorted_desc [sampleA, sampleB] "tv" wDefault [] (by simp)

/-- C4: for every non-empty input batch and every source value present in
it, `best_by_source` contains exactly one entry for that source, and that
entry is the first (hence lowest-rank, i.e. highest-ranked) product of that
source in `all_products`. -/
theorem c4_best_by_source (batch : List RawProduct) (query : String)
    (w : Weights) (sims : List ℚ) (h : batch ≠ []) (src : String)
    (hsrc : src ∈ batch.map (fun p => p.source)) :
    ∃ l b p,
      (process_and_compare_products batch query w sims).all_products =
        some l ∧
      (process_and_compare_products batch query w sims).best_by_source =
        some b ∧
      b.filter (fun r => decide (r.source = src)) = [p] ∧
      (l.filter (fun r => decide (r.source = src))).head? = some p ∧
      ∀ q ∈ l, q.source = src → p.rank ≤ q.rank := by
  set l := rankedResults batch query w sims with hl
  have hmem : src ∈ l.map (fun r => r.source) :=
    ((rankedResults_source_perm batch query w sims).mem_iff).mpr hsrc
  obtain ⟨r0, hr0l, hr0s⟩ := List.mem_map.mp hmem
  have hr0f : r0 ∈ l.filter (fun r => decide (r.source = src)) :=
    List.mem_filter.mpr ⟨hr0l, by simp [hr0s]⟩
  obtain ⟨p, rest, hflt⟩ :=
    List.exists_cons_of_ne_nil (List.ne_nil_of_mem hr0f)
  refine ⟨l, bestBySource l, p, process_all_products query w sims h,
    process_best_by_source query w sims h, ?_, ?_, ?_⟩
  · rw [bestBySource_filter, hflt]
    rfl
  · rw [hflt, List.head?_cons]
  · intro q hq hqs
    have hqf : q ∈ l.filter (fun r => decide (r.source = src)) :=
      List.mem_filter.mpr ⟨hq, by simp [hqs]⟩
    have hpair : (l.filter (fun r => decide (r.source = src))).Pairwise
        (fun a b => a.rank < b.rank) :=
      (rankedResults_rank_strict batch query w sims).sublist
        (List.filter_sublist l)
    rw [hflt] at hpair hqf
    rcases List.mem_cons.mp hqf with hqp | hqrest
    · exact le_of_eq (congrArg RankedProduct.rank hqp.symm)
    · exact le_of_lt ((List.pairwise_cons.mp hpair).1 q hqrest)

theorem c4_best_by_source_witness :
    ∃ l b p,
      (process_and_compare_products [sampleA, sampleB] "tv" wDefault
        []).all_products = some l ∧
      (process_and_compare_products [sampleA, sampleB] "tv" wDefault
        []).best_by_source = some b ∧
      b.filter (fun r => decide (r.source = "Amazon")) = [p] ∧
      (l.filter (fun r => decide (r.source = "Amazon"))).head? = some p ∧
      ∀ q ∈ l, q.source = "Amazon" → p.rank ≤ q.rank :=
  c4_best_by_source [sampleA, sampleB] "tv" wDefault [] (by simp)
    "Amazon" (by decide)

/-! ## Two-element batch evaluation helpers -/

theorem priceNorm_pair {a b : ℚ} (hab : a < b) :
    priceNorm [some a, some b] = [some 1, some 0] := by
  have hbne : b ≠ a := ne_of_gt hab
  have hmax : maxQ [a, b] = b := by
    show List.foldl max a [b] = b
    simp [max_eq_right hab.le]
  have hmin : minQ [a, b] = a := by
    show List.foldl min a [b] = a
    simp [min_eq_left hab.le]
  have hpres : ([some a, some b] : List (Option ℚ)).filterMap id = [a, b] := by
    simp
  rw [priceNorm]
  simp only [hpres, hmax, hmin]
  rw [if_neg (by simp), if_pos hbne]
  simp [div_self (sub_ne_zero.mpr hbne)]

theorem normHigher_pair {a b : ℚ} (hab : a < b) :
    normHigher [a, b] = [0, 1] := by
  have hbne : b ≠ a := ne_of_gt hab
  have hmax : maxQ [a, b] = b := by
    show List.foldl max a [b] = b
    simp [max_eq_right hab.le]
  have hmin : minQ [a, b] = a := by
    show List.foldl min a [b] = a
    simp [min_eq_left hab.le]
  rw [normHigher]
  simp only [hmax, hmin]
  rw [if_pos hbne]
  simp [div_self (sub_ne_zero.mpr hbne)]

/-- For a two-row frame the whole pipeline reduces to one comparison of the
two scores. -/
theorem allProducts_pair {batch : List RawProduct} {query : String}
    {w : Weights} {sims : List ℚ} {r0 r1 : ScoredRow}
    (hb : batch ≠ []) (hrows : scoredRows batch query w sims = [r0, r1]) :
    (process_and_compare_products batch query w sims).all_products =
      some (if rowGe r0 r1
        then [toRankedProduct 1 r0, toRankedProduct 2 r1]
        else [toRankedProduct 1 r1, toRankedProduct 2 r0]) := by
  rw [process_all_products query w sims hb, rankedResults, hrows]
  by_cases hge : rowGe r0 r1 <;>
    simp [sortScoresDesc, hge, List.enumFrom]

/-- C6 (amended): for two products identical except in price (both present,
distinct) and a weight vector with positive price weight and zero rating,
review and relevance weights, the cheaper product's pre-rounding weighted
score (`w.price` versus `0`) is strictly higher and it is assigned rank 1
in `all_products`; its reported score `round2(w.price * 100)` is ≥ the
dearer product's reported score `0`, with equality possible after rounding
(see the counterexample). -/
theorem c6_cheaper_rank_first (p1 p2 : RawProduct) (a b : ℚ) (query : String)
    (w : Weights) (sims : List ℚ)
    (ht : p1.title = p2.title) (hrt : p1.rating = p2.rating)
    (hrv : p1.reviews = p2.reviews) (hlk : p1.link = p2.link)
    (him : p1.image = p2.image) (hsc : p1.source = p2.source)
    (hds : p1.description = p2.description)
    (hp1 : p1.price = some a) (hp2 : p2.price = some b) (hab : a < b)
    (hw : 0 < w.price) (hwr : w.ratings = 0) (hwv : w.reviews = 0)
    (hwd : w.description_relevance = 0) :
    ∃ l, (process_and_compare_products [p1, p2] query w sims).all_products =
        some l ∧
      (scoredRows [p1, p2] query w sims).map (fun r => r.score) =
        [some w.price, some 0] ∧
      l.map (fun r => (r.rank, r.price, r.score)) =
        [(1, some a, some (round2 (w.price * 100))), (2, some b, some 0)] ∧
      0 ≤ round2 (w.price * 100) := by
  have hip : imputedPrices [p1, p2] = [some a, some b] := by
    simp [imputedPrices, hp1, hp2]
  have hpn : priceNorm [some a, some b] = [some 1, some 0] :=
    priceNorm_pair hab
  have hlen2 : (scoredRows [p1, p2] query w sims).length = 2 :=
    scoredRows_length _ _ _ _
  obtain ⟨r0, r1, hrows⟩ := List.length_eq_two.mp hlen2
  have hmapscore : (scoredRows [p1, p2] query w sims).map (fun r => r.score) =
      [some w.price, some 0] := by
    rw [scoredRows]
    show ((List.range 2).map _).map _ = _
    rw [show List.range 2 = [0, 1] from rfl]
    simp only [List.map_cons, List.map_nil, hip, hpn]
    simp only [List.getD]
    norm_num [hwr, hwv, hwd]
  have hmapprice : (scoredRows [p1, p2] query w sims).map (fun r => r.priceI) =
      [some a, some b] := by
    rw [scoredRows]
    show ((List.range 2).map _).map _ = _
    rw [show List.range 2 = [0, 1] from rfl]
    simp only [List.map_cons, List.map_nil, hip]
    simp [List.getD]
  rw [hrows] at hmapscore hmapprice
  simp only [List.map_cons, List.map_nil, List.cons.injEq, and_true]
    at hmapscore hmapprice
  obtain ⟨hs0, hs1⟩ := hmapscore
  obtain ⟨hpr0, hpr1⟩ := hmapprice
  have hge : rowGe r0 r1 := by
    unfold rowGe scoreGe
    rw [hs0, hs1]
    simp [scoreGtB, not_lt, hw.le]
  have hsort : sortScoresDesc [r0, r1] = [r0, r1] := by
    simp [sortScoresDesc, hge]
  refine ⟨_, process_all_products query w sims (by simp), ?_, ?_, ?_⟩
  · rw [hrows]
    simp [hs0, hs1]
  · rw [rankedResults, hrows, hsort]
    simp [List.enumFrom, toRankedProduct, hpr0, hpr1, hs0, hs1, round2_zero]
  · exact round2_nonneg (mul_nonneg hw.le (by norm_num))

theorem c6_cheaper_rank_first_witness :
    ∃ l, (process_and_compare_products [cheapTV, dearTV] "phone" wPriceTiny
        []).all_products = some l ∧
      (scoredRows [cheapTV, dearTV] "phone" wPriceTiny []).map
        (fun r => r.score) = [some wPriceTiny.price, some 0] ∧
      l.map (fun r => (r.rank, r.price, r.score)) =
        [(1, some 500, some (round2 (wPriceTiny.price * 100))),
          (2, some 1000, some 0)] ∧
      0 ≤ round2 (wPriceTiny.price * 100) :=
  c6_cheaper_rank_first cheapTV dearTV 500 1000 "phone" wPriceTiny []
    rfl rfl rfl rfl rfl rfl rfl rfl rfl (by norm_num)
    (by norm_num [wPriceTiny]) rfl rfl rfl

/-- C1 counterexample: input `[tieA, tieB]` (titles `"aa"` then `"bb"`) with
weights `wTie` gives raw scores `0.4999995` and `0.5000005`; both report as
`50.0` after rounding, yet the output orders `"bb"` before `"aa"` — two
products with equal (reported) scores in REVERSED input order, refuting the
claim as stated. -/
theorem c1_rounded_tie_reversed :
    ((process_and_compare_products [tieA, tieB] "phone" wTie
        []).all_products.getD []).map (fun r => (r.title, r.rank, r.score)) =
      [("bb", 1, some 50), ("aa", 2, some 50)] ∧
    tieA.title = "aa" ∧ tieB.title = "bb" ∧ tieA.title ≠ tieB.title := by
  have hip : imputedPrices [tieA, tieB] = [some 50, some 100] := by decide
  have hrat : ratingsCol [tieA, tieB] = [1, 2] := by decide
  have hrev : reviewsCol [tieA, tieB] = [10, 10] := by decide
  have hrel : relevanceCol [tieA, tieB] "phone" [] = [1, 1] := by decide
  have hpn : priceNorm [(some 50 : Option ℚ), some 100] = [some 1, some 0] :=
    priceNorm_pair (by norm_num)
  have hrn : normHigher [(1 : ℚ), 2] = [0, 1] := normHigher_pair (by norm_num)
  have hvn : normHigher [(10 : ℚ), 10] = [1, 1] := normHigher_replicate 2 10
  have hdn : normHigher [(1 : ℚ), 1] = [1, 1] := normHigher_replicate 2 1
  have hmapscore : (scoredRows [tieA, tieB] "phone" wTie []).map
      (fun r => r.score) =
      [some (4999995/10000000), some (5000005/10000000)] := by
    rw [scoredRows]
    show ((List.range 2).map _).map _ = _
    rw [show List.range 2 = [0, 1] from rfl]
    simp only [List.map_cons, List.map_nil, hip, hrat, hrev, hrel, hpn, hrn,
      hvn, hdn]
    simp only [List.getD]
    norm_num [wTie]
  have hmapprod : (scoredRows [tieA, tieB] "phone" wTie []).map
      (fun r => r.prod) = [tieA, tieB] := scoredRows_map_prod _ _ _ _
  obtain ⟨r0, r1, hrows⟩ := List.length_eq_two.mp (scoredRows_length
    [tieA, tieB] "phone" wTie [])
  rw [hrows] at hmapscore hmapprod
  simp only [List.map_cons, List.map_nil, List.cons.injEq, and_true]
    at hmapscore hmapprod
  obtain ⟨hs0, hs1⟩ := hmapscore
  obtain ⟨hpd0, hpd1⟩ := hmapprod
  have hnge : ¬ rowGe r0 r1 := by
    unfold rowGe scoreGe
    rw [hs0, hs1]
    simp only [scoreGtB]
    norm_num
  rw [allProducts_pair (by simp) hrows, if_neg hnge]
  refine ⟨?_, by decide, by decide, by decide⟩
  simp only [Option.getD_some, List.map_cons, List.map_nil, toRankedProduct]
  rw [hs0, hs1, hpd0, hpd1]
  have hround1 : round2 (5000005/10000000 * 100) = 50 := by
    norm_num [round2, halfEven, Int.fract]
  have hround0 : round2 (4999995/10000000 * 100) = 50 := by
    norm_num [round2, halfEven, Int.fract]
  simp [hround0, hround1, tieA, tieB]

/-- C6 counterexample: two products identical except price (500 versus
1000) and weight vector `wPriceTiny` (price weight `10⁻⁵ > 0`, all others
0): the cheaper product is rank 1, but BOTH reported scores are `0.0`
(`round(0.001, 2) = 0.0`), so the cheaper product does NOT receive a
strictly higher score in the output. -/
theorem c6_tiny_weight_rounded_tie :
    ((process_and_compare_products [cheapTV, dearTV] "phone" wPriceTiny
        []).all_products.getD []).map (fun r => (r.rank, r.price, r.score)) =
      [(1, some 500, some 0), (2, some 1000, some 0)] ∧
    cheapTV.price = some 500 ∧ dearTV.price = some 1000 ∧
    0 < wPriceTiny.price := by
  have hip : imputedPrices [cheapTV, dearTV] = [some 500, some 1000] := by
    decide
  have hrat : ratingsCol [cheapTV, dearTV] = [4, 4] := by decide
  have hrev : reviewsCol [cheapTV, dearTV] = [10, 10] := by decide
  have hrel : relevanceCol [cheapTV, dearTV] "phone" [] = [0, 0] := by decide
  have hpn : priceNorm [(some 500 : Option ℚ), some 1000] =
      [some 1, some 0] := priceNorm_pair (by norm_num)
  have hrn : normHigher [(4 : ℚ), 4] = [1, 1] := normHigher_replicate 2 4
  have hvn : normHigher [(10 : ℚ), 10] = [1, 1] := normHigher_replicate 2 10
  have hdn : normHigher [(0 : ℚ), 0] = [1, 1] := normHigher_replicate 2 0
  have hmapscore : (scoredRows [cheapTV, dearTV] "phone" wPriceTiny []).map
      (fun r => r.score) = [some (1/100000), some 0] := by
    rw [scoredRows]
    show ((List.range 2).map _).map _ = _
    rw [show List.range 2 = [0, 1] from rfl]
    simp only [List.map_cons, List.map_nil, hip, hrat, hrev, hrel, hpn, hrn,
      hvn, hdn]
    simp only [List.getD]
    norm_num [wPriceTiny]
  have hmapprice : (scoredRows [cheapTV, dearTV] "phone" wPriceTiny []).map
      (fun r => r.priceI) = [some 500, some 1000] := by
    rw [scoredRows]
    show ((List.range 2).map _).map _ = _
    rw [show List.range 2 = [0, 1] from rfl]
    simp only [List.map_cons, List.map_nil, hip]
    simp [List.getD]
  obtain ⟨r0, r1, hrows⟩ := List.length_eq_two.mp (scoredRows_length
    [cheapTV, dearTV] "phone" wPriceTiny [])
  rw [hrows] at hmapscore hmapprice
  simp only [List.map_cons, List.map_nil, List.cons.injEq, and_true]
    at hmapscore hmapprice
  obtain ⟨hs0, hs1⟩ := hmapscore
  obtain ⟨hpr0, hpr1⟩ := hmapprice
  have hge : rowGe r0 r1 := by
    unfold rowGe scoreGe
    rw [hs0, hs1]
    simp only [scoreGtB]
    norm_num
  rw [allProducts_pair (by simp) hrows, if_pos hge]
  refine ⟨?_, by decide, by decide, by norm_num [wPriceTiny]⟩
  simp only [Option.getD_some, List.map_cons, List.map_nil, toRankedProduct]
  rw [hs0, hs1, hpr0, hpr1]
  have hround1 : round2 ((100000 : ℚ)⁻¹ * 100) = 0 := by
    norm_num [round2, halfEven, Int.fract]
  simp [hround1, round2_zero]
